import Mathlib

/-!
Shallow embedding of the real-time chat backend's message pipeline,
conversation state manager and presence registry, translated from the
repository's source (Message model, Conversation model, message routes,
socket handler), together with proofs settling the specification claims.

Identifiers are modelled as natural numbers, timestamps as natural
numbers, and JavaScript `Map` objects as insertion-ordered association
lists with the `Map` operations (`get`/`set`/`has`/`delete`).  Numeric
payload fields that the code only carries around (file sizes, media
durations, coordinates) are modelled as integers; no claim computes on
them.
-/

namespace Chat

abbrev UserId := Nat
abbrev MsgId := Nat
abbrev ConvId := Nat
abbrev Handle := Nat
abbrev Time := Nat

/-! ### Association-list model of a JavaScript `Map`

`Map.get` returns the value at the first (unique) matching key,
`Map.set` overwrites in place or appends a fresh key at the end, and
`Map.delete` removes the key's entry. -/

/-- `Map.get k`: the value stored at key `k`, if any. -/
def aget {κ α : Type} [DecidableEq κ] : List (κ × α) → κ → Option α
  | [], _ => none
  | (k', v) :: l, k => if k = k' then some v else aget l k

/-- `Map.set k v`: overwrite the first entry for `k`, else append. -/
def aset {κ α : Type} [DecidableEq κ] : List (κ × α) → κ → α → List (κ × α)
  | [], k, v => [(k, v)]
  | (k', v') :: l, k, v => if k = k' then (k, v) :: l else (k', v') :: aset l k v

/-- `Map.delete k`: drop the entry for `k`. -/
def adel {κ α : Type} [DecidableEq κ] (l : List (κ × α)) (k : κ) : List (κ × α) :=
  l.filter (fun p => p.1 ≠ k)

/-! ### Message model (`src/models/Message.js`) -/

/-- The `type` enum of the message schema. -/
inductive MType
  | text | image | video | audio | file | location | contact | sticker | system
deriving DecidableEq, Repr

/-- `content.media` sub-document. -/
structure MediaContent where
  url : Option String := none
  filename : Option String := none
  size : Option Int := none
  mimeType : Option String := none
  duration : Option Int := none
  thumbnail : Option String := none
  width : Option Int := none
  height : Option Int := none
deriving DecidableEq, Repr

/-- `content.location` sub-document. -/
structure LocationContent where
  latitude : Option Int := none
  longitude : Option Int := none
  address : Option String := none
deriving DecidableEq, Repr

/-- `content.contact` sub-document. -/
structure ContactContent where
  name : Option String := none
  phone : Option String := none
  email : Option String := none
deriving DecidableEq, Repr

/-- `content.sticker` sub-document. -/
structure StickerContent where
  id : Option String := none
  url : Option String := none
deriving DecidableEq, Repr

/-- The polymorphic `content` payload of a message. -/
structure Content where
  text : Option String := none
  media : Option MediaContent := none
  location : Option LocationContent := none
  contact : Option ContactContent := none
  sticker : Option StickerContent := none
deriving DecidableEq, Repr

/-- An entry of `readBy` / `deliveredTo`: user plus timestamp. -/
structure ReceiptEntry where
  user : UserId
  time : Time
deriving DecidableEq, Repr

/-- The `metadata` sub-document. -/
structure Metadata where
  clientId : Option String := none
  deviceId : Option String := none
  platform : Option String := none
  version : Option String := none
deriving DecidableEq, Repr

/-- A message document, with the fields of the schema in
`src/models/Message.js` (the `reactions` field is a `Map` from reaction
token to the list of reacting users). -/
structure Message where
  id : MsgId
  conversation : ConvId
  sender : UserId
  type : MType := .text
  content : Content := {}
  replyTo : Option MsgId := none
  forwardedFrom : Option (MsgId × UserId) := none
  reactions : List (String × List UserId) := []
  readBy : List ReceiptEntry := []
  deliveredTo : List ReceiptEntry := []
  isEdited : Bool := false
  editedAt : Option Time := none
  isDeleted : Bool := false
  deletedAt : Option Time := none
  deletedBy : Option UserId := none
  metadata : Metadata := {}
  createdAt : Time := 0
deriving DecidableEq, Repr

namespace Message

/-- `messageSchema.virtual('displayContent')`: placeholder for deleted
messages, the text for text/system messages, a fixed label per media
type otherwise.  The JS getter can yield `undefined` (an absent text
field), hence the `Option` result. -/
def displayContent (m : Message) : Option String :=
  if m.isDeleted then some "This message was deleted"
  else
    match m.type with
    | .text => m.content.text
    | .image => some "📷 Image"
    | .video => some "🎥 Video"
    | .audio => some "🎵 Audio"
    | .file => some "📎 File"
    | .location => some "📍 Location"
    | .contact => some "👤 Contact"
    | .sticker => some "😀 Sticker"
    | .system => m.content.text

/-- `messageSchema.methods.addReaction(reaction, userId)`: ensure the
token has an entry, then push the user if not already present. -/
def addReaction (reaction : String) (userId : UserId) (m : Message) : Message :=
  let r0 := if (aget m.reactions reaction).isSome then m.reactions
            else aset m.reactions reaction []
  let users := (aget r0 reaction).getD []
  if userId ∈ users then { m with reactions := r0 }
  else { m with reactions := aset r0 reaction (users ++ [userId]) }

/-- `messageSchema.methods.removeReaction(reaction, userId)`: filter the
user out of the token's list; delete the token entirely when the
filtered list is empty. -/
def removeReaction (reaction : String) (userId : UserId) (m : Message) : Message :=
  match aget m.reactions reaction with
  | none => m
  | some users =>
    let filteredUsers := users.filter (fun i => i ≠ userId)
    if filteredUsers.length = 0 then { m with reactions := adel m.reactions reaction }
    else { m with reactions := aset m.reactions reaction filteredUsers }

/-- `messageSchema.methods.markAsRead(userId)`: append a receipt unless
one already exists for the user. -/
def markAsRead (userId : UserId) (now : Time) (m : Message) : Message :=
  if (m.readBy.find? (fun r => r.user = userId)).isSome then m
  else { m with readBy := m.readBy ++ [⟨userId, now⟩] }

/-- `messageSchema.methods.markAsDelivered(userId)`. -/
def markAsDelivered (userId : UserId) (now : Time) (m : Message) : Message :=
  if (m.deliveredTo.find? (fun d => d.user = userId)).isSome then m
  else { m with deliveredTo := m.deliveredTo ++ [⟨userId, now⟩] }

/-- `messageSchema.methods.editMessage(newContent)`: overwrite
`content.text`, set the edit flag and timestamp. -/
def editMessage (newContent : String) (now : Time) (m : Message) : Message :=
  { m with content := { m.content with text := some newContent },
           isEdited := true, editedAt := some now }

/-- `messageSchema.methods.deleteMessage(userId)`: soft delete. -/
def deleteMessage (userId : UserId) (now : Time) (m : Message) : Message :=
  { m with isDeleted := true, deletedAt := some now, deletedBy := some userId }

/-- `messageSchema.methods.forwardMessage(targetConversationId, userId)`:
a fresh message in the target conversation with the same type and
content and a `forwardedFrom` back-reference; reactions, receipts and
edit/delete state are not copied. -/
def forwardMessage (targetConversationId : ConvId) (userId : UserId)
    (newId : MsgId) (now : Time) (m : Message) : Message :=
  { id := newId
    conversation := targetConversationId
    sender := userId
    type := m.type
    content := m.content
    forwardedFrom := some (m.id, m.sender)
    createdAt := now }

end Message

/-! ### Conversation model (`src/models/Conversation.js`) -/

/-- Participant roles. -/
inductive Role
  | admin | moderator | member
deriving DecidableEq, Repr

/-- Conversation kinds. -/
inductive CType
  | direct | group
deriving DecidableEq, Repr

/-- An element of the `participants` array. -/
structure Participant where
  user : UserId
  role : Role := .member
  joinedAt : Time := 0
  leftAt : Option Time := none
  isActive : Bool := true
deriving DecidableEq, Repr

/-- An element of the `mutedBy` array. -/
structure MuteEntry where
  user : UserId
  mutedUntil : Option Time := none
  mutedAt : Time := 0
deriving DecidableEq, Repr

/-- A conversation document (`src/models/Conversation.js`); the
`unreadCount` field is a `Map` from user id to a number. -/
structure Conversation where
  id : ConvId
  ctype : CType := .direct
  participants : List Participant := []
  lastMessage : Option MsgId := none
  lastMessageAt : Time := 0
  unreadCount : List (UserId × Int) := []
  archivedBy : List (UserId × Time) := []
  mutedBy : List MuteEntry := []
  pinnedMessages : List (MsgId × UserId × Time) := []
  deletedBy : List (UserId × Time) := []
deriving DecidableEq, Repr

/-- Apply `f` to the first element of the list matching `p`, as
JavaScript's `array.find(...)` followed by in-place mutation does. -/
def updFirst {α : Type} (p : α → Bool) (f : α → α) : List α → List α
  | [] => []
  | x :: xs => if p x then f x :: xs else x :: updFirst p f xs

namespace Conversation

/-- The membership check used throughout the routes and the socket
handler: `participants.some(p => p.user.equals(userId) && p.isActive)`. -/
def isActiveParticipant (c : Conversation) (userId : UserId) : Bool :=
  c.participants.any (fun p => p.user = userId && p.isActive)

/-- `conversationSchema.methods.addParticipant(userId, role)`: push a
fresh active entry unless any entry (active or not) exists for the user. -/
def addParticipant (userId : UserId) (role : Role) (now : Time)
    (c : Conversation) : Conversation :=
  if (c.participants.find? (fun p => p.user = userId)).isSome then c
  else { c with participants :=
          c.participants ++ [{ user := userId, role := role, joinedAt := now }] }

/-- `conversationSchema.methods.removeParticipant(userId)`: flip the
first matching entry to inactive and stamp `leftAt`; the slot is kept. -/
def removeParticipant (userId : UserId) (now : Time) (c : Conversation) : Conversation :=
  { c with participants :=
      (updFirst (fun p => p.user = userId)
        (fun p => { p with isActive := false, leftAt := some now }) c.participants) }

/-- `this.unreadCount.get(userId.toString()) || 0`. -/
def unreadOf (c : Conversation) (userId : UserId) : Int :=
  (aget c.unreadCount userId).getD 0

/-- `conversationSchema.methods.updateUnreadCount(userId, count = 1)`. -/
def updateUnreadCount (userId : UserId) (count : Int) (c : Conversation) : Conversation :=
  { c with unreadCount := aset c.unreadCount userId (c.unreadOf userId + count) }

/-- `conversationSchema.methods.resetUnreadCount(userId)`. -/
def resetUnreadCount (userId : UserId) (c : Conversation) : Conversation :=
  { c with unreadCount := aset c.unreadCount userId 0 }

/-- `conversationSchema.methods.muteConversation(userId, duration = null)`.
`duration ? new Date(Date.now() + duration) : null` — note the
JavaScript truthiness: a zero duration also yields `null`. -/
def muteConversation (userId : UserId) (duration : Option Time) (now : Time)
    (c : Conversation) : Conversation :=
  let mutedUntil : Option Time :=
    match duration with
    | some d => if d = 0 then none else some (now + d)
    | none => none
  if (c.mutedBy.find? (fun m => m.user = userId)).isSome then
    { c with mutedBy :=
        (updFirst (fun m => m.user = userId)
          (fun m => { m with mutedUntil := mutedUntil, mutedAt := now }) c.mutedBy) }
  else
    { c with mutedBy := c.mutedBy ++ [{ user := userId, mutedUntil := mutedUntil, mutedAt := now }] }

/-- `conversationSchema.methods.unmuteConversation(userId)`. -/
def unmuteConversation (userId : UserId) (c : Conversation) : Conversation :=
  { c with mutedBy := c.mutedBy.filter (fun m => m.user ≠ userId) }

/-- `conversationSchema.methods.isUserMuted(userId)`: returns the
boolean and the (possibly mutated) conversation, since the read evicts
the user's entry whenever `mutedUntil > now` fails to hold — including
when `mutedUntil` is `null`. -/
def isUserMuted (userId : UserId) (now : Time) (c : Conversation) : Bool × Conversation :=
  match c.mutedBy.find? (fun m => m.user = userId) with
  | none => (false, c)
  | some mu =>
    match mu.mutedUntil with
    | some t =>
      if now < t then (true, c)
      else (false, { c with mutedBy := c.mutedBy.filter (fun m => m.user ≠ userId) })
    | none => (false, { c with mutedBy := c.mutedBy.filter (fun m => m.user ≠ userId) })

end Conversation

/-! ### Presence registry (`socketHandler`'s `connectedUsers` map)

`connectedUsers` is keyed by `userId.toString()`; we model it as a
partial function from user id to the live socket handle.  On
`connection`, `connectedUsers.set(socket.userId, ...)` overwrites any
previous entry; on `disconnect`, `connectedUsers.delete(socket.userId)`
removes the entry keyed by the disconnecting socket's user id — the
stored socket id is not consulted. -/

def Registry : Type := UserId → Option Handle

namespace Registry

/-- The registry before any connection. -/
def empty : Registry := fun _ => none

/-- `connectedUsers.set(socket.userId.toString(), { socketId, ... })`. -/
def register (userId : UserId) (handle : Handle) (r : Registry) : Registry :=
  fun x => if x = userId then some handle else r x

/-- The `disconnect` handler for a socket with user `userId` and socket
id `handle`: `connectedUsers.delete(socket.userId.toString())`.  The
`handle` the event fired on is not compared with the stored one. -/
def disconnectHandler (userId : UserId) (_handle : Handle) (r : Registry) : Registry :=
  fun x => if x = userId then none else r x

/-- Presence check: `connectedUsers.get(...)` yields an entry. -/
def isOnline (userId : UserId) (r : Registry) : Bool :=
  (r userId).isSome

end Registry

/-! ### Persisted store and the message routes (`src/routes/messages.js`,
part of the socket handler)

The durable store holds the conversation and message documents; message
ids are allocated by the store at creation.  A `persistOk` flag stands
for the outcome of `message.save()` at the persistence boundary. -/

/-- The durable store visible to the routes. -/
structure Store where
  conversations : List Conversation := []
  messages : List Message := []
  nextId : MsgId := 0
deriving DecidableEq, Repr

/-- `Conversation.findById`. -/
def findConversation (st : Store) (cid : ConvId) : Option Conversation :=
  st.conversations.find? (fun c => c.id = cid)

/-- `conversation.save()`: write the mutated document back under its id. -/
def saveConversation (st : Store) (c : Conversation) : Store :=
  { st with conversations := st.conversations.map (fun c' => if c'.id = c.id then c else c') }

/-- The error taxonomy surfaced by the routes. -/
inductive RouteError
  | validationFailed
  | notFound
  | forbidden
  | invalidState
  | transient
deriving DecidableEq, Repr

/-- One pass of the unread-update loop over a participant list:
`if (!participant.user.equals(senderId) && participant.isActive)
   await conversation.updateUnreadCount(participant.user)`. -/
def unreadLoop (senderId : UserId) (ps : List Participant) (c : Conversation) : Conversation :=
  ps.foldl
    (fun acc p =>
      if p.user ≠ senderId ∧ p.isActive then acc.updateUnreadCount p.user 1 else acc)
    c

/-- The unread-update loop of a successful send (HTTP route and socket
handler alike): for every participant of the conversation other than the
sender that is active, `conversation.updateUnreadCount(participant.user)`. -/
def sendUnreadUpdate (senderId : UserId) (c : Conversation) : Conversation :=
  unreadLoop senderId c.participants c

/-- `POST /api/messages/conversations/:conversationId/messages` (and the
`message:send` socket handler, which performs the same steps): check the
conversation exists, check the sender's active membership, build the
message, persist it, then set the conversation's last-message pointer
and run the unread-update loop.  Returns the store after the request
together with the created message id or the error. -/
def sendMessageRoute (uid : UserId) (cid : ConvId) (mtype : MType) (content : Content)
    (replyTo : Option MsgId) (now : Time) (persistOk : Bool) (st : Store) :
    Store × Except RouteError MsgId :=
  match findConversation st cid with
  | none => (st, .error .notFound)
  | some conversation =>
    if conversation.isActiveParticipant uid then
      let message : Message :=
        { id := st.nextId, conversation := cid, sender := uid, type := mtype,
          content := content, replyTo := replyTo, createdAt := now }
      if persistOk then
        let st1 : Store :=
          { st with messages := st.messages ++ [message], nextId := st.nextId + 1 }
        let conv1 : Conversation :=
          { conversation with lastMessage := some message.id, lastMessageAt := now }
        let conv2 := sendUnreadUpdate uid conv1
        (saveConversation st1 conv2, .ok message.id)
      else (st, .error .transient)
    else (st, .error .forbidden)

/-- `PUT /api/messages/:id`: after `authorizeMessageAccess` attached the
message, the route validates the body, checks the requester is the
sender, checks the type is `text`, and applies `editMessage`.  No other
check is made — in particular none on `isDeleted`. -/
def editRoute (uid : UserId) (content : String) (now : Time) (m : Message) :
    Except RouteError Message :=
  if content = "" then .error .validationFailed
  else if m.sender ≠ uid then .error .forbidden
  else if m.type ≠ .text then .error .invalidState
  else .ok (m.editMessage content now)

/-- The membership filter of the forward route's query
`Conversation.find({ _id: { $in: conversationIds },
'participants.user': req.user._id, 'participants.isActive': true })`.
MongoDB matches the two array conditions independently: some
participant entry carries the user, and some (possibly different)
participant entry is active. -/
def mongoForwardMatch (uid : UserId) (conversationIds : List ConvId)
    (c : Conversation) : Bool :=
  c.id ∈ conversationIds
    && c.participants.any (fun p => p.user = uid)
    && c.participants.any (fun p => p.isActive)

/-- One iteration of the forward loop: create the forwarded copy in the
target conversation and update that conversation's last-message pointer. -/
def forwardStep (uid : UserId) (originalMessage : Message) (now : Time)
    (acc : Store × List MsgId) (conversation : Conversation) : Store × List MsgId :=
  let fm := originalMessage.forwardMessage conversation.id uid acc.1.nextId now
  let st1 : Store :=
    { acc.1 with messages := acc.1.messages ++ [fm], nextId := acc.1.nextId + 1 }
  let conv1 : Conversation :=
    { conversation with lastMessage := some fm.id, lastMessageAt := now }
  (saveConversation st1 conv1, acc.2 ++ [fm.id])

/-- `POST /api/messages/:id/forward`: validate the target list, fetch
the conversations matching the query, reject when the count differs
from the number of requested ids, else create one forwarded copy per
fetched conversation and update each conversation's last-message
pointer. -/
def forwardRoute (uid : UserId) (originalMessage : Message)
    (conversationIds : List ConvId) (now : Time) (st : Store) :
    Store × Except RouteError (List MsgId) :=
  if conversationIds.length = 0 then (st, .error .validationFailed)
  else
    let conversations := st.conversations.filter (mongoForwardMatch uid conversationIds)
    if conversations.length ≠ conversationIds.length then (st, .error .forbidden)
    else
      let out := conversations.foldl (forwardStep uid originalMessage now) (st, [])
      (out.1, .ok out.2)

/-! ### Well-formedness predicates

Invariants of store-produced documents that the operations themselves
maintain: no reaction token is stored with an empty user list, a user
has at most one participant slot per conversation, and a conversation's
last-message pointer references a persisted message. -/

/-- No reaction token with an empty user list. -/
def reactionsWF (m : Message) : Prop :=
  ∀ p ∈ m.reactions, p.2 ≠ []

/-- Each user owns at most one participant slot. -/
def nodupUsers (c : Conversation) : Prop :=
  (c.participants.map (fun p => p.user)).Nodup

/-- Every last-message pointer references a persisted message. -/
def lastMessageOk (st : Store) : Prop :=
  ∀ c ∈ st.conversations, ∀ mid, c.lastMessage = some mid →
    ∃ m ∈ st.messages, m.id = mid

/-- All unread counters are non-negative. -/
def nonnegUnread (c : Conversation) : Prop :=
  ∀ u : UserId, 0 ≤ c.unreadOf u

/-! ### Concrete documents used as counterexamples and witnesses -/

/-- A soft-deleted text message from user 7. -/
def mDel : Message :=
  { id := 50, conversation := 1, sender := 7, type := .text,
    content := { text := some "hello" },
    isDeleted := true, deletedAt := some 3, deletedBy := some 7 }

/-- A live text message from user 7, used by witnesses. -/
def mLive : Message :=
  { id := 51, conversation := 1, sender := 7, type := .text,
    content := { text := some "hi" } }

/-- A conversation whose only slot for user 4 is inactive (user 4 has
left) while user 5 is active. -/
def convLeft : Conversation :=
  { id := 1,
    participants := [{ user := 4, isActive := false, leftAt := some 1 }, { user := 5 }] }

/-- A conversation where users 4 and 5 are both active. -/
def convBoth : Conversation :=
  { id := 1, participants := [{ user := 4 }, { user := 5 }] }

/-- A store holding only `convLeft`. -/
def storeLeft : Store := { conversations := [convLeft], messages := [], nextId := 100 }

/-- A store holding only `convBoth`. -/
def storeBoth : Store := { conversations := [convBoth], messages := [], nextId := 100 }

/-! ## Helper lemmas -/

@[simp] theorem aget_nil {κ α : Type} [DecidableEq κ] (k : κ) :
    aget ([] : List (κ × α)) k = none := rfl

@[simp] theorem aget_cons {κ α : Type} [DecidableEq κ] (k k' : κ) (v : α) (l : List (κ × α)) :
    aget ((k', v) :: l) k = if k = k' then some v else aget l k := rfl

theorem aget_aset_self {κ α : Type} [DecidableEq κ] (l : List (κ × α)) (k : κ) (v : α) :
    aget (aset l k v) k = some v := by
  induction l with
  | nil => simp [aset, aget]
  | cons p l ih =>
    obtain ⟨k', v'⟩ := p
    by_cases h : k = k' <;> simp [aset, aget, h, ih]

theorem aget_aset_ne {κ α : Type} [DecidableEq κ] (l : List (κ × α)) (k k' : κ) (v : α)
    (h : k' ≠ k) : aget (aset l k v) k' = aget l k' := by
  induction l with
  | nil => simp [aset, aget, h]
  | cons p l ih =>
    obtain ⟨k₀, v₀⟩ := p
    by_cases hk : k = k₀
    · subst hk
      simp [aset, aget, h]
    · by_cases hk' : k' = k₀ <;> simp [aset, aget, hk, hk', ih]

theorem aget_adel_self {κ α : Type} [DecidableEq κ] (l : List (κ × α)) (k : κ) :
    aget (adel l k) k = none := by
  induction l with
  | nil => simp [adel, aget]
  | cons p l ih =>
    obtain ⟨k', v'⟩ := p
    by_cases h : k' = k
    · simpa [adel, aget, h] using ih
    · have hne : k ≠ k' := fun hk => h hk.symm
      simpa [adel, aget, h, hne] using ih

/-- Writing back the value already stored at a key leaves the map unchanged. -/
theorem aset_aget_self {κ α : Type} [DecidableEq κ] (l : List (κ × α)) (k : κ) (v : α)
    (h : aget l k = some v) : aset l k v = l := by
  induction l with
  | nil => simp [aget] at h
  | cons p l ih =>
    obtain ⟨k', v'⟩ := p
    by_cases hk : k = k'
    · simp [aget, hk] at h
      simp [aset, hk, h]
    · simp [aget, hk] at h
      simp [aset, hk, ih h]

/-- A value returned by `aget` is one of the stored entries. -/
theorem aget_mem {κ α : Type} [DecidableEq κ] (l : List (κ × α)) (k : κ) (v : α)
    (h : aget l k = some v) : (k, v) ∈ l := by
  induction l with
  | nil => simp [aget] at h
  | cons p l ih =>
    obtain ⟨k', v'⟩ := p
    by_cases hk : k = k'
    · simp [aget, hk] at h
      subst hk
      simp [h]
    · simp [aget, hk] at h
      exact List.mem_cons_of_mem _ (ih h)

/-- Re-adding a reaction the user already holds is a no-op. -/
theorem addReaction_mem_noop (m : Message) (t : String) (u : UserId) (us : List UserId)
    (hget : aget m.reactions t = some us) (hu : u ∈ us) : m.addReaction t u = m := by
  unfold Message.addReaction
  simp [hget, hu]

/-- The reaction list stored at `t` after `addReaction t u`. -/
theorem aget_addReaction_self (m : Message) (t : String) (u : UserId) :
    aget (m.addReaction t u).reactions t =
      some (if u ∈ (aget m.reactions t).getD [] then (aget m.reactions t).getD []
            else (aget m.reactions t).getD [] ++ [u]) := by
  unfold Message.addReaction
  cases h : aget m.reactions t with
  | none =>
    simp [h, aget_aset_self]
  | some us =>
    by_cases hu : u ∈ us <;> simp [h, hu, aget_aset_self]

/-! ## Claim C10 -/

/-- C10: `editMessage` frame condition — for every message `m` and new
content `s`, `editMessage` changes only `content.text`, `isEdited`
(set to `true`) and `editedAt`; sender, conversation, type, replyTo,
forwardedFrom, reactions, readBy, deliveredTo and isDeleted (and the
non-text content payloads) are unchanged, for every message type. -/
theorem editMessage_frame (m : Message) (s : String) (now : Time) :
    (m.editMessage s now).sender = m.sender ∧
    (m.editMessage s now).conversation = m.conversation ∧
    (m.editMessage s now).type = m.type ∧
    (m.editMessage s now).replyTo = m.replyTo ∧
    (m.editMessage s now).forwardedFrom = m.forwardedFrom ∧
    (m.editMessage s now).reactions = m.reactions ∧
    (m.editMessage s now).readBy = m.readBy ∧
    (m.editMessage s now).deliveredTo = m.deliveredTo ∧
    (m.editMessage s now).isDeleted = m.isDeleted ∧
    (m.editMessage s now).deletedAt = m.deletedAt ∧
    (m.editMessage s now).deletedBy = m.deletedBy ∧
    (m.editMessage s now).content.media = m.content.media ∧
    (m.editMessage s now).content.location = m.content.location ∧
    (m.editMessage s now).content.contact = m.content.contact ∧
    (m.editMessage s now).content.sticker = m.content.sticker ∧
    (m.editMessage s now).content.text = some s ∧
    (m.editMessage s now).isEdited = true ∧
    (m.editMessage s now).editedAt = some now := by
  simp [Message.editMessage]

/-! ## Claim C5 -/

/-- C5: reaction round-trip and idempotence — when `u` is the only
reactor for token `t` (no entry, or an entry holding exactly `u`),
`addReaction t u` then `removeReaction t u` leaves no entry for `t`;
and a second `addReaction t u` is a no-op. -/
theorem reaction_roundtrip_idempotent (m : Message) (t : String) (u : UserId)
    (h : aget m.reactions t = none ∨ aget m.reactions t = some [u]) :
    aget ((m.addReaction t u).removeReaction t u).reactions t = none ∧
    (m.addReaction t u).addReaction t u = m.addReaction t u := by
  constructor
  · have hself : aget (m.addReaction t u).reactions t = some [u] := by
      rcases h with h | h <;> simp [aget_addReaction_self, h]
    unfold Message.removeReaction
    simp [hself, aget_adel_self]
  · have hself := aget_addReaction_self m t u
    refine addReaction_mem_noop _ t u _ hself ?_
    by_cases hu : u ∈ (aget m.reactions t).getD [] <;> simp [hu]

/-- Witness for C5 at a concrete message. -/
theorem reaction_roundtrip_idempotent_witness :
    aget ((mLive.addReaction "👍" 9).removeReaction "👍" 9).reactions "👍" = none ∧
    (mLive.addReaction "👍" 9).addReaction "👍" 9 = mLive.addReaction "👍" 9 :=
  reaction_roundtrip_idempotent mLive "👍" 9 (Or.inl rfl)

/-! ## Claim C9 -/

/-- C9: `removeReaction` is total and safe on absent entries — on a
well-formed message (no token stored with an empty user list), removing
a reaction whose token has no entry, or whose user list does not
contain the caller, succeeds and leaves the message exactly unchanged. -/
theorem removeReaction_absent_noop (m : Message) (t : String) (u : UserId)
    (hwf : reactionsWF m)
    (h : aget m.reactions t = none ∨ ∀ us, aget m.reactions t = some us → u ∉ us) :
    m.removeReaction t u = m := by
  cases hget : aget m.reactions t with
  | none =>
    unfold Message.removeReaction
    rw [hget]
  | some us =>
    rcases h with h | h
    · rw [hget] at h
      cases h
    · have hu : u ∉ us := h us hget
      have hne : us ≠ [] := hwf (t, us) (aget_mem _ _ _ hget)
      have hfilter : us.filter (fun i => i ≠ u) = us := by
        rw [List.filter_eq_self]
        intro a ha
        have hane : a ≠ u := by
          intro hau
          exact hu (hau ▸ ha)
        simpa using hane
      unfold Message.removeReaction
      rw [hget]
      simp only [hfilter]
      rw [if_neg (by simpa using hne), aset_aget_self _ _ _ hget]

/-- Witness for C9 at a concrete message. -/
theorem removeReaction_absent_noop_witness :
    reactionsWF mLive ∧ mLive.removeReaction "👍" 9 = mLive :=
  ⟨by simp [reactionsWF, mLive],
   removeReaction_absent_noop mLive "👍" 9 (by simp [reactionsWF, mLive]) (Or.inl rfl)⟩

/-! ## Claim C1 -/

/-- `addReaction` never touches the delete flag. -/
theorem addReaction_isDeleted (m : Message) (t : String) (u : UserId) :
    (m.addReaction t u).isDeleted = m.isDeleted := by
  unfold Message.addReaction
  dsimp only
  split <;> split <;> rfl

/-- `removeReaction` never touches the delete flag. -/
theorem removeReaction_isDeleted (m : Message) (t : String) (u : UserId) :
    (m.removeReaction t u).isDeleted = m.isDeleted := by
  unfold Message.removeReaction
  split
  · rfl
  · dsimp only
    split <;> rfl

/-- `markAsRead` never touches the delete flag. -/
theorem markAsRead_isDeleted (m : Message) (u : UserId) (now : Time) :
    (m.markAsRead u now).isDeleted = m.isDeleted := by
  unfold Message.markAsRead
  split <;> rfl

/-- `markAsDelivered` never touches the delete flag. -/
theorem markAsDelivered_isDeleted (m : Message) (u : UserId) (now : Time) :
    (m.markAsDelivered u now).isDeleted = m.isDeleted := by
  unfold Message.markAsDelivered
  split <;> rfl

/-- C1 (amended): once `isDeleted` is set it is terminal — no message
operation clears it, and the rendered content of a deleted message is
the fixed placeholder regardless of type.  However the pipeline does
not reject operations on deleted messages: the edit route still accepts
an edit of a deleted text message from its sender (no `InvalidState`),
and `addReaction` still records reactions on deleted messages. -/
theorem deleted_flag_terminal_not_enforced (m : Message) (uid u' : UserId)
    (t s : String) (now : Time) (hdel : m.isDeleted = true) :
    (m.editMessage s now).isDeleted = true ∧
    (m.deleteMessage u' now).isDeleted = true ∧
    (m.addReaction t u').isDeleted = true ∧
    (m.removeReaction t u').isDeleted = true ∧
    (m.markAsRead u' now).isDeleted = true ∧
    (m.markAsDelivered u' now).isDeleted = true ∧
    m.displayContent = some "This message was deleted" ∧
    (s ≠ "" → m.sender = uid → m.type = .text →
      editRoute uid s now m = .ok (m.editMessage s now)) := by
  refine ⟨hdel, rfl, ?_, ?_, ?_, ?_, ?_, ?_⟩
  · rw [addReaction_isDeleted, hdel]
  · rw [removeReaction_isDeleted, hdel]
  · rw [markAsRead_isDeleted, hdel]
  · rw [markAsDelivered_isDeleted, hdel]
  · simp [Message.displayContent, hdel]
  · intro hs hsender htype
    simp [editRoute, hs, hsender, htype]

/-- Counterexample to C1 as stated: a deleted text message is still
editable through the edit route (the pipeline returns success, not
`InvalidState`), and a reaction on it is still accepted. -/
theorem deleted_edit_accepted_counterexample :
    mDel.isDeleted = true ∧
    editRoute 7 "changed" 5 mDel = .ok (mDel.editMessage "changed" 5) ∧
    (mDel.editMessage "changed" 5).content.text = some "changed" ∧
    aget (mDel.addReaction "👍" 9).reactions "👍" = some [9] := by
  refine ⟨rfl, ?_, rfl, ?_⟩
  · simp [editRoute, mDel]
  · simp [Message.addReaction, mDel, aget, aset]

/-- Witness for the amended C1 at a concrete deleted message. -/
theorem deleted_flag_terminal_not_enforced_witness :
    (mDel.editMessage "x" 5).isDeleted = true ∧
    (mDel.deleteMessage 9 5).isDeleted = true ∧
    (mDel.addReaction "👍" 9).isDeleted = true ∧
    (mDel.removeReaction "👍" 9).isDeleted = true ∧
    (mDel.markAsRead 9 5).isDeleted = true ∧
    (mDel.markAsDelivered 9 5).isDeleted = true ∧
    mDel.displayContent = some "This message was deleted" ∧
    editRoute 7 "x" 5 mDel = .ok (mDel.editMessage "x" 5) := by
  have h := deleted_flag_terminal_not_enforced mDel 7 9 "👍" "x" 5 rfl
  exact ⟨h.1, h.2.1, h.2.2.1, h.2.2.2.1, h.2.2.2.2.1, h.2.2.2.2.2.1, h.2.2.2.2.2.2.1,
    h.2.2.2.2.2.2.2 (by decide) rfl rfl⟩

/-! ## Claim C4 -/

/-- Applying `updFirst` twice with a predicate the update preserves and
an idempotent update is the same as applying it once. -/
theorem updFirst_idem {α : Type} (p : α → Bool) (f : α → α) (l : List α)
    (hp : ∀ x, p (f x) = p x) (hf : ∀ x, f (f x) = f x) :
    updFirst p f (updFirst p f l) = updFirst p f l := by
  induction l with
  | nil => rfl
  | cons x xs ih =>
    by_cases hx : p x
    · simp [updFirst, hx, hp, hf]
    · simp [updFirst, hx, ih]

/-- Deactivating a user's (unique) slot removes them from the active
check, on any participant list without duplicate users. -/
theorem any_active_updFirst (l : List Participant) (u : UserId) (t : Time)
    (hnd : (l.map (fun p => p.user)).Nodup) :
    ((updFirst (fun p => p.user = u)
        (fun p => { p with isActive := false, leftAt := some t }) l).any
      (fun p => p.user = u && p.isActive)) = false := by
  rw [List.any_eq_false]
  induction l with
  | nil => simp [updFirst]
  | cons p rest ih =>
    simp only [List.map_cons, List.nodup_cons] at hnd
    by_cases hp : p.user = u
    · subst hp
      rw [updFirst, if_pos (by simp)]
      intro q hq
      rcases List.mem_cons.mp hq with rfl | hq
      · simp
      · simp only [Bool.and_eq_true, decide_eq_true_eq, not_and]
        intro hcon
        exact absurd (hcon ▸ List.mem_map_of_mem (fun x => x.user) hq) hnd.1
    · rw [updFirst, if_neg (by simpa using hp)]
      intro q hq
      rcases List.mem_cons.mp hq with rfl | hq
      · simp [hp]
      · exact ih hnd.2 q hq

/-- After `removeParticipant`, a user with a single slot is not an
active participant. -/
theorem isActiveParticipant_remove (c : Conversation) (u : UserId) (t : Time)
    (hnd : nodupUsers c) :
    (c.removeParticipant u t).isActiveParticipant u = false := by
  unfold Conversation.removeParticipant Conversation.isActiveParticipant
  dsimp only
  exact any_active_updFirst c.participants u t hnd

/-- C4 (amended): `isActiveParticipant(C,U)` is false immediately after
`removeParticipant(C,U)`; `addParticipant(C,U)` makes it true when `C`
holds no participant record for `U`, but is a no-op whenever any record
for `U` exists — including an inactive one left by a previous leave, so
a user who left and is re-added stays inactive; repeating either
operation is idempotent. -/
theorem participant_add_remove (c : Conversation) (u : UserId) (role : Role)
    (t t' : Time) (hnd : nodupUsers c) :
    (c.removeParticipant u t).isActiveParticipant u = false ∧
    ((∀ p ∈ c.participants, p.user ≠ u) →
      (c.addParticipant u role t).isActiveParticipant u = true) ∧
    ((∃ p ∈ c.participants, p.user = u) → c.addParticipant u role t = c) ∧
    (c.removeParticipant u t).removeParticipant u t = c.removeParticipant u t ∧
    (c.addParticipant u role t).addParticipant u role t' = c.addParticipant u role t := by
  refine ⟨isActiveParticipant_remove c u t hnd, ?_, ?_, ?_, ?_⟩
  · intro habs
    have hfind : c.participants.find? (fun p => p.user = u) = none := by
      rw [List.find?_eq_none]
      intro p hp
      simpa using habs p hp
    unfold Conversation.addParticipant Conversation.isActiveParticipant
    simp [hfind]
  · intro ⟨p, hp, hpu⟩
    have hfind : (c.participants.find? (fun p => p.user = u)).isSome := by
      rw [List.find?_isSome]
      exact ⟨p, hp, by simpa using hpu⟩
    unfold Conversation.addParticipant
    simp [hfind]
  · unfold Conversation.removeParticipant
    dsimp only
    rw [updFirst_idem]
    · intro x
      simp
    · intro x
      rfl
  · cases hfind : c.participants.find? (fun p => p.user = u) with
    | some p =>
      unfold Conversation.addParticipant
      simp [hfind]
    | none =>
      unfold Conversation.addParticipant
      simp only [hfind, Option.isSome_none, Bool.false_eq_true, if_neg, not_false_iff]
      have hfind2 : ((c.participants ++
          [{ user := u, role := role, joinedAt := t : Participant }]).find?
            (fun p => p.user = u)).isSome := by
        rw [List.find?_isSome]
        exact ⟨_, List.mem_append_right _ (List.mem_singleton.mpr rfl), by simp⟩
      simp [hfind2]

/-- Counterexample to C4 as stated: a user who left a conversation and
is added again is still not an active participant, because
`addParticipant` no-ops on the existing inactive slot. -/
theorem participant_readd_counterexample :
    ((convBoth.removeParticipant 4 1).addParticipant 4 .member 2).isActiveParticipant 4
      = false := by decide

/-- Witness for the amended C4 at a concrete conversation. -/
theorem participant_add_remove_witness :
    nodupUsers convBoth ∧
    ((convBoth.removeParticipant 4 1).isActiveParticipant 4 = false ∧
     ((∀ p ∈ convBoth.participants, p.user ≠ 4) →
       (convBoth.addParticipant 4 .member 1).isActiveParticipant 4 = true) ∧
     ((∃ p ∈ convBoth.participants, p.user = 4) →
       convBoth.addParticipant 4 .member 1 = convBoth) ∧
     (convBoth.removeParticipant 4 1).removeParticipant 4 1
       = convBoth.removeParticipant 4 1 ∧
     (convBoth.addParticipant 4 .member 1).addParticipant 4 .member 2
       = convBoth.addParticipant 4 .member 1) :=
  ⟨by simp [nodupUsers, convBoth],
   participant_add_remove convBoth 4 .member 1 2 (by simp [nodupUsers, convBoth])⟩

/-! ## Claim C7 -/

/-- Appending the only matching element makes `find?` return it. -/
theorem find?_append_right {α : Type} (l : List α) (e : α) (p : α → Bool)
    (hl : l.find? p = none) (he : p e) : (l ++ [e]).find? p = some e := by
  rw [List.find?_append, hl]
  simp [List.find?_cons, he]

/-- A timed mute on a conversation with no existing entry for the user
appends an entry with the absolute expiry `now + duration`. -/
theorem muteConversation_fresh (c : Conversation) (u : UserId) (d t0 : Time)
    (hnew : ∀ m ∈ c.mutedBy, m.user ≠ u) (hd : d ≠ 0) :
    (c.muteConversation u (some d) t0).mutedBy
      = c.mutedBy ++ [{ user := u, mutedUntil := some (t0 + d), mutedAt := t0 }] := by
  have hfind : c.mutedBy.find? (fun m => m.user = u) = none := by
    rw [List.find?_eq_none]
    intro m hm
    simpa using hnew m hm
  unfold Conversation.muteConversation
  simp [hfind, hd]

/-- An untimed mute (or a zero-duration one — JavaScript truthiness) on
a conversation with no existing entry appends an entry without expiry. -/
theorem muteConversation_fresh_untimed (c : Conversation) (u : UserId) (t0 : Time)
    (hnew : ∀ m ∈ c.mutedBy, m.user ≠ u) :
    (c.muteConversation u none t0).mutedBy
      = c.mutedBy ++ [{ user := u, mutedUntil := none, mutedAt := t0 }] := by
  have hfind : c.mutedBy.find? (fun m => m.user = u) = none := by
    rw [List.find?_eq_none]
    intro m hm
    simpa using hnew m hm
  unfold Conversation.muteConversation
  simp [hfind]

/-- C7 (amended): a mute with a nonzero duration computes the absolute
expiry `now + duration`, and `isUserMuted` then returns true exactly
while the query time is before the expiry; once expired, the read
itself evicts the entry.  A mute with no duration, however, stores no
expiry and the very next `isUserMuted` read treats it as expired:
it returns false and evicts the entry, so an untimed mute is never
reported as muted.  `unmuteConversation` removes the user's entry. -/
theorem mute_read_eviction (c : Conversation) (u : UserId) (d t0 t : Time)
    (hnew : ∀ m ∈ c.mutedBy, m.user ≠ u) (hd : d ≠ 0) :
    (((c.muteConversation u (some d) t0).isUserMuted u t).1 = decide (t < t0 + d)) ∧
    (t0 + d ≤ t →
      ∀ m ∈ ((c.muteConversation u (some d) t0).isUserMuted u t).2.mutedBy, m.user ≠ u) ∧
    (((c.muteConversation u none t0).isUserMuted u t).1 = false) ∧
    (∀ m ∈ ((c.muteConversation u none t0).isUserMuted u t).2.mutedBy, m.user ≠ u) ∧
    (∀ m ∈ (c.unmuteConversation u).mutedBy, m.user ≠ u) := by
  have hmb := muteConversation_fresh c u d t0 hnew hd
  have hmb0 := muteConversation_fresh_untimed c u t0 hnew
  have hfindT : (c.muteConversation u (some d) t0).mutedBy.find? (fun m => m.user = u)
      = some { user := u, mutedUntil := some (t0 + d), mutedAt := t0 } := by
    rw [hmb]
    refine find?_append_right _ _ _ ?_ (by simp)
    rw [List.find?_eq_none]
    intro m hm
    simpa using hnew m hm
  have hfindU : (c.muteConversation u none t0).mutedBy.find? (fun m => m.user = u)
      = some { user := u, mutedUntil := none, mutedAt := t0 } := by
    rw [hmb0]
    refine find?_append_right _ _ _ ?_ (by simp)
    rw [List.find?_eq_none]
    intro m hm
    simpa using hnew m hm
  refine ⟨?_, ?_, ?_, ?_, ?_⟩
  · unfold Conversation.isUserMuted
    rw [hfindT]
    by_cases ht : t < t0 + d <;> simp [ht]
  · intro hexp
    unfold Conversation.isUserMuted
    rw [hfindT]
    have ht : ¬ t < t0 + d := not_lt.mpr hexp
    simp only [ht, if_neg, not_false_iff]
    intro m hm
    have := (List.mem_filter.mp hm).2
    simpa using this
  · unfold Conversation.isUserMuted
    rw [hfindU]
  · unfold Conversation.isUserMuted
    rw [hfindU]
    intro m hm
    have := (List.mem_filter.mp hm).2
    simpa using this
  · intro m hm
    have := (List.mem_filter.mp hm).2
    simpa using this

/-- Counterexample to C7 as stated: after a mute with no duration and
no intervening unmute, `isUserMuted` already returns false (and has
evicted the entry), not true. -/
theorem mute_untimed_not_muted_counterexample :
    ((convBoth.muteConversation 4 none 10).isUserMuted 4 11).1 = false ∧
    ((convBoth.muteConversation 4 none 10).isUserMuted 4 11).2.mutedBy = [] := by
  constructor <;> rfl

/-- Witness for the amended C7 at a concrete conversation. -/
theorem mute_read_eviction_witness :
    (((convBoth.muteConversation 4 (some 5) 10).isUserMuted 4 12).1 = decide (12 < 10 + 5)) ∧
    (∀ m ∈ ((convBoth.muteConversation 4 (some 5) 10).isUserMuted 4 20).2.mutedBy,
      m.user ≠ 4) ∧
    (((convBoth.muteConversation 4 none 10).isUserMuted 4 12).1 = false) ∧
    (∀ m ∈ (convBoth.unmuteConversation 4).mutedBy, m.user ≠ 4) := by
  have hnew : ∀ m ∈ convBoth.mutedBy, m.user ≠ 4 := by
    intro m hm
    simp [convBoth] at hm
  refine ⟨(mute_read_eviction convBoth 4 5 10 12 hnew (by decide)).1,
    (mute_read_eviction convBoth 4 5 10 20 hnew (by decide)).2.1 (by decide),
    (mute_read_eviction convBoth 4 5 10 12 hnew (by decide)).2.2.1,
    (mute_read_eviction convBoth 4 5 10 12 hnew (by decide)).2.2.2.2⟩

/-! ## Claim C8 -/

/-- C8 (amended): `register` is last-writer-wins — a reconnect replaces
the user's handle — but the disconnect handler removes the mapping
keyed by the disconnecting socket's user id without comparing handles,
so a stale handle's later disconnect removes the user's current mapping
and `isOnline` becomes false; a disconnect for a user with no mapping
leaves the registry unchanged (idempotent). -/
theorem registry_lww_disconnect (r : Registry) (u : UserId) (h1 h2 hx : Handle) :
    (Registry.register u h2 (Registry.register u h1 r)) u = some h2 ∧
    Registry.isOnline u (Registry.disconnectHandler u h1
      (Registry.register u h2 (Registry.register u h1 r))) = false ∧
    (r u = none → Registry.disconnectHandler u hx r = r) := by
  refine ⟨by simp [Registry.register],
    by simp [Registry.disconnectHandler, Registry.isOnline], ?_⟩
  intro h0
  funext x
  unfold Registry.disconnectHandler
  by_cases hxu : x = u
  · subst hxu
    simp [h0]
  · simp [hxu]

/-- Counterexample to C8 as stated: user 4 reconnects on handle 2, then
the stale handle 1 disconnects — the registry drops user 4 entirely, so
`isOnline` is false instead of remaining true. -/
theorem registry_stale_disconnect_counterexample :
    Registry.isOnline 4 (Registry.disconnectHandler 4 1
      (Registry.register 4 2 (Registry.register 4 1 Registry.empty))) = false := by
  rfl

/-- Witness for the amended C8 on the empty registry. -/
theorem registry_lww_disconnect_witness :
    (Registry.register 5 2 (Registry.register 5 1 Registry.empty)) 5 = some 2 ∧
    Registry.isOnline 5 (Registry.disconnectHandler 5 1
      (Registry.register 5 2 (Registry.register 5 1 Registry.empty))) = false ∧
    Registry.disconnectHandler 5 7 Registry.empty = Registry.empty :=
  ⟨(registry_lww_disconnect Registry.empty 5 1 2 7).1,
   (registry_lww_disconnect Registry.empty 5 1 2 7).2.1,
   (registry_lww_disconnect Registry.empty 5 1 2 7).2.2 rfl⟩

/-! ## Claim C3 -/

/-- `updateUnreadCount` bumps exactly the targeted counter. -/
theorem unreadOf_update (c : Conversation) (v : UserId) (k : Int) (w : UserId) :
    (c.updateUnreadCount v k).unreadOf w
      = if w = v then c.unreadOf w + k else c.unreadOf w := by
  by_cases h : w = v
  · subst h
    simp [Conversation.updateUnreadCount, Conversation.unreadOf, aget_aset_self]
  · simp [Conversation.updateUnreadCount, Conversation.unreadOf,
      aget_aset_ne _ _ _ _ h, h]

/-- `resetUnreadCount` zeroes exactly the targeted counter. -/
theorem unreadOf_reset (c : Conversation) (v : UserId) (w : UserId) :
    (c.resetUnreadCount v).unreadOf w = if w = v then 0 else c.unreadOf w := by
  by_cases h : w = v
  · subst h
    simp [Conversation.resetUnreadCount, Conversation.unreadOf, aget_aset_self]
  · simp [Conversation.resetUnreadCount, Conversation.unreadOf,
      aget_aset_ne _ _ _ _ h, h]

/-- The unread loop adds one per matching participant entry. -/
theorem unreadOf_unreadLoop (s w : UserId) (ps : List Participant) (c : Conversation) :
    (unreadLoop s ps c).unreadOf w
      = c.unreadOf w
        + (ps.countP (fun p => p.user = w && !(p.user = s) && p.isActive) : Int) := by
  induction ps generalizing c with
  | nil => simp [unreadLoop]
  | cons p rest ih =>
    rw [unreadLoop, List.foldl_cons]
    rw [show rest.foldl
        (fun acc q => if q.user ≠ s ∧ q.isActive then acc.updateUnreadCount q.user 1 else acc)
        (if p.user ≠ s ∧ p.isActive then c.updateUnreadCount p.user 1 else c)
      = unreadLoop s rest
        (if p.user ≠ s ∧ p.isActive then c.updateUnreadCount p.user 1 else c) from rfl]
    rw [ih, List.countP_cons]
    by_cases hc : p.user ≠ s ∧ p.isActive
    · rw [if_pos hc, unreadOf_update]
      by_cases hw : w = p.user
      · have hws : ¬ w = s := by
          rw [hw]
          exact hc.1
        have hpred : (p.user = w && !(p.user = s) && p.isActive) = true := by
          simp [hw.symm, hws, hc.2]
        rw [hpred, if_pos hw]
        simp only [if_pos]
        push_cast
        ring
      · have hpw : ¬ p.user = w := fun h => hw h.symm
        have hpred : (p.user = w && !(p.user = s) && p.isActive) = false := by
          simp [hpw]
        rw [hpred, if_neg hw]
        simp
    · rw [if_neg hc]
      have hpred : (p.user = w && !(p.user = s) && p.isActive) = false := by
        rcases not_and_or.mp hc with h | h
        · simp [not_not.mp h]
        · rw [Bool.not_eq_true] at h
          simp [h]
      rw [hpred]
      simp

/-- The unread loop only touches the unread counters. -/
theorem unreadLoop_frame (s : UserId) (ps : List Participant) (c : Conversation) :
    (unreadLoop s ps c).id = c.id ∧
    (unreadLoop s ps c).participants = c.participants ∧
    (unreadLoop s ps c).lastMessage = c.lastMessage ∧
    (unreadLoop s ps c).lastMessageAt = c.lastMessageAt := by
  induction ps generalizing c with
  | nil => exact ⟨rfl, rfl, rfl, rfl⟩
  | cons p rest ih =>
    rw [unreadLoop, List.foldl_cons]
    rw [show rest.foldl
        (fun acc q => if q.user ≠ s ∧ q.isActive then acc.updateUnreadCount q.user 1 else acc)
        (if p.user ≠ s ∧ p.isActive then c.updateUnreadCount p.user 1 else c)
      = unreadLoop s rest
        (if p.user ≠ s ∧ p.isActive then c.updateUnreadCount p.user 1 else c) from rfl]
    rcases ih (if p.user ≠ s ∧ p.isActive then c.updateUnreadCount p.user 1 else c)
      with ⟨h1, h2, h3, h4⟩
    rw [h1, h2, h3, h4]
    by_cases hc : p.user ≠ s ∧ p.isActive
    · rw [if_pos hc]
      exact ⟨rfl, rfl, rfl, rfl⟩
    · rw [if_neg hc]
      exact ⟨rfl, rfl, rfl, rfl⟩

/-- On a participant list without duplicate users, exactly one entry
matches an active non-sender user. -/
theorem countP_active_one (ps : List Participant) (w s : UserId)
    (hnd : (ps.map (fun p => p.user)).Nodup) (hws : w ≠ s)
    (hact : ∃ p ∈ ps, p.user = w ∧ p.isActive = true) :
    ps.countP (fun p => p.user = w && !(p.user = s) && p.isActive) = 1 := by
  induction ps with
  | nil => simp at hact
  | cons p rest ih =>
    simp only [List.map_cons, List.nodup_cons] at hnd
    rw [List.countP_cons]
    by_cases hp : p.user = w
    · have hactp : p.isActive = true := by
        rcases hact with ⟨q, hq, hqw, hqa⟩
        rcases List.mem_cons.mp hq with rfl | hq
        · exact hqa
        · exact absurd (hp ▸ hqw ▸ List.mem_map_of_mem (fun x => x.user) hq) hnd.1
      have hws' : ¬ p.user = s := by
        rw [hp]
        exact hws
      have hpred : (p.user = w && !(p.user = s) && p.isActive) = true := by
        simp [hp, hws', hws, hactp]
      have hrest : rest.countP (fun p => p.user = w && !(p.user = s) && p.isActive) = 0 := by
        rw [List.countP_eq_zero]
        intro q hq
        have hqw : ¬ q.user = w := by
          intro h
          have : q.user ∈ rest.map (fun x => x.user) :=
            List.mem_map_of_mem (fun x => x.user) hq
          rw [h, ← hp] at this
          exact hnd.1 this
        simp [hqw]
      rw [hpred, hrest]
      simp
    · have hpred : (p.user = w && !(p.user = s) && p.isActive) = false := by
        simp [hp]
      have hact' : ∃ q ∈ rest, q.user = w ∧ q.isActive = true := by
        rcases hact with ⟨q, hq, hqw, hqa⟩
        rcases List.mem_cons.mp hq with rfl | hq
        · exact absurd hqw hp
        · exact ⟨q, hq, hqw, hqa⟩
      rw [hpred, ih hnd.2 hact']
      simp

/-- No entry matches the sender. -/
theorem countP_sender_zero (ps : List Participant) (s : UserId) :
    ps.countP (fun p => p.user = s && !(p.user = s) && p.isActive) = 0 := by
  rw [List.countP_eq_zero]
  intro q hq
  by_cases hqs : q.user = s <;> simp [hqs]

/-- `find?` over a saved list returns the written-back document. -/
theorem find?_map_replace (l : List Conversation) (cid : ConvId) (conv c' : Conversation)
    (h : l.find? (fun c => c.id = cid) = some conv) (hid : c'.id = conv.id) :
    (l.map (fun x => if x.id = c'.id then c' else x)).find? (fun c => c.id = cid)
      = some c' := by
  have hcid : conv.id = cid := by simpa using List.find?_some h
  induction l with
  | nil => simp at h
  | cons x xs ih =>
    by_cases hx : x.id = cid
    · rw [List.find?_cons_of_pos _ (by simpa using hx)] at h
      have hxconv : x = conv := by simpa using h
      subst hxconv
      have hxc : x.id = c'.id := by rw [hid]
      simp only [List.map_cons, hxc, if_pos]
      exact List.find?_cons_of_pos _ (by simp [hid, hcid])
    · rw [List.find?_cons_of_neg _ (by simpa using hx)] at h
      have hxc : ¬ x.id = c'.id := by
        rw [hid, hcid]
        exact hx
      simp only [List.map_cons, hxc, if_neg, not_false_iff]
      rw [List.find?_cons_of_neg _ (by simpa using hx)]
      exact ih h

/-- Looking up a conversation after writing one back. -/
theorem findConversation_save (st : Store) (cid : ConvId) (conv c' : Conversation)
    (h : findConversation st cid = some conv) (hid : c'.id = conv.id) :
    findConversation (saveConversation st c') cid = some c' :=
  find?_map_replace st.conversations cid conv c' h hid

/-- C3: per successful send, the unread counter of every active
participant other than the sender increases by exactly 1 while the
sender's is unchanged; `resetUnreadCount` sets a counter to exactly 0;
and no counter ever becomes negative under these operations. -/
theorem unread_counters (st : Store) (conv : Conversation) (uid : UserId) (cid : ConvId)
    (mtype : MType) (content : Content) (rt : Option MsgId) (now : Time)
    (hfind : findConversation st cid = some conv) (hnd : nodupUsers conv)
    (hmem : conv.isActiveParticipant uid = true) :
    (∀ V, V ≠ uid → (∃ p ∈ conv.participants, p.user = V ∧ p.isActive = true) →
      ∃ conv', findConversation (sendMessageRoute uid cid mtype content rt now true st).1 cid
          = some conv' ∧
        conv'.unreadOf V = conv.unreadOf V + 1 ∧
        conv'.unreadOf uid = conv.unreadOf uid) ∧
    (∀ (c : Conversation) (u' : UserId), (c.resetUnreadCount u').unreadOf u' = 0) ∧
    (∀ (c : Conversation) (s' u' : UserId), nonnegUnread c →
      nonnegUnread (sendUnreadUpdate s' c) ∧ nonnegUnread (c.resetUnreadCount u')) := by
  refine ⟨?_, ?_, ?_⟩
  · intro V hV hact
    have hroute : (sendMessageRoute uid cid mtype content rt now true st).1
        = saveConversation
            { st with
                messages := st.messages ++
                  [{ id := st.nextId, conversation := cid, sender := uid, type := mtype,
                     content := content, replyTo := rt, createdAt := now }],
                nextId := st.nextId + 1 }
            (sendUnreadUpdate uid
              { conv with lastMessage := some st.nextId, lastMessageAt := now }) := by
      unfold sendMessageRoute
      rw [hfind]
      simp [hmem]
    set conv1 : Conversation :=
      { conv with lastMessage := some st.nextId, lastMessageAt := now } with hconv1
    have hid : (sendUnreadUpdate uid conv1).id = conv.id := by
      unfold sendUnreadUpdate
      exact (unreadLoop_frame uid conv1.participants conv1).1
    refine ⟨sendUnreadUpdate uid conv1, ?_, ?_, ?_⟩
    · rw [hroute]
      exact findConversation_save _ cid conv _ hfind hid
    · unfold sendUnreadUpdate
      rw [unreadOf_unreadLoop]
      have : conv1.unreadOf V = conv.unreadOf V := rfl
      rw [this,
        show conv1.participants = conv.participants from rfl,
        countP_active_one conv.participants V uid hnd hV hact]
      simp
    · unfold sendUnreadUpdate
      rw [unreadOf_unreadLoop,
        show conv1.participants = conv.participants from rfl,
        countP_sender_zero conv.participants uid]
      simp
      rfl
  · intro c u'
    rw [unreadOf_reset, if_pos rfl]
  · intro c s' u' hnn
    constructor
    · intro w
      unfold sendUnreadUpdate
      rw [unreadOf_unreadLoop]
      have h1 := hnn w
      positivity
    · intro w
      rw [unreadOf_reset]
      by_cases hw : w = u'
      · simp [hw]
      · simpa [hw] using hnn w

/-- Witness for C3: a send by user 4 into a two-member conversation
bumps user 5's counter to 1 and leaves user 4's at 0. -/
theorem unread_counters_witness :
    ∃ conv', findConversation
        (sendMessageRoute 4 1 .text { text := some "hi" } none 9 true storeBoth).1 1
        = some conv' ∧
      conv'.unreadOf 5 = convBoth.unreadOf 5 + 1 ∧
      conv'.unreadOf 4 = convBoth.unreadOf 4 := by
  have h := unread_counters storeBoth convBoth 4 1 .text { text := some "hi" } none 9
    (by rfl) (by simp [nodupUsers, convBoth]) (by rfl)
  exact h.1 5 (by decide) ⟨{ user := 5 }, by simp [convBoth], rfl, rfl⟩

/-! ## Claim C6 -/

/-- When persistence fails the send route returns the store untouched,
whatever the other inputs. -/
theorem sendMessageRoute_persist_fail (uid : UserId) (cid : ConvId) (mtype : MType)
    (content : Content) (rt : Option MsgId) (now : Time) (st : Store) :
    (sendMessageRoute uid cid mtype content rt now false st).1 = st := by
  unfold sendMessageRoute
  cases hfind : findConversation st cid with
  | none => rfl
  | some conv => by_cases hm : conv.isActiveParticipant uid <;> simp [hm]

/-- C6: send atomicity at the persist boundary — a failed persist
leaves the store (conversation aggregate, unread counters, messages)
exactly unchanged, the send route preserves the invariant that every
conversation's last-message pointer references a persisted message, and
a successful send points the conversation at the message that was just
persisted. -/
theorem send_atomicity (uid : UserId) (cid : ConvId) (mtype : MType) (content : Content)
    (rt : Option MsgId) (now : Time) (persistOk : Bool) (st : Store)
    (hok : lastMessageOk st) :
    (sendMessageRoute uid cid mtype content rt now false st).1 = st ∧
    lastMessageOk (sendMessageRoute uid cid mtype content rt now persistOk st).1 ∧
    (∀ mid, (sendMessageRoute uid cid mtype content rt now persistOk st).2 = .ok mid →
      ∃ conv', findConversation
          (sendMessageRoute uid cid mtype content rt now persistOk st).1 cid
          = some conv' ∧ conv'.lastMessage = some mid ∧
        ∃ m ∈ (sendMessageRoute uid cid mtype content rt now persistOk st).1.messages,
          m.id = mid) := by
  refine ⟨sendMessageRoute_persist_fail uid cid mtype content rt now st, ?_⟩
  cases hfind : findConversation st cid with
  | none =>
    have hroute : sendMessageRoute uid cid mtype content rt now persistOk st
        = (st, .error .notFound) := by
      unfold sendMessageRoute
      rw [hfind]
    rw [hroute]
    exact ⟨hok, fun mid hmid => by cases hmid⟩
  | some conv =>
    by_cases hm : conv.isActiveParticipant uid
    · cases persistOk with
      | false =>
        have hroute : sendMessageRoute uid cid mtype content rt now false st
            = (st, .error .transient) := by
          unfold sendMessageRoute
          rw [hfind]
          simp [hm]
        rw [hroute]
        exact ⟨hok, fun mid hmid => by cases hmid⟩
      | true =>
        have hroute : sendMessageRoute uid cid mtype content rt now true st
            = (saveConversation
                { st with
                    messages := st.messages ++
                      [{ id := st.nextId, conversation := cid, sender := uid,
                         type := mtype, content := content, replyTo := rt,
                         createdAt := now }],
                    nextId := st.nextId + 1 }
                (sendUnreadUpdate uid
                  { conv with lastMessage := some st.nextId, lastMessageAt := now }),
               .ok st.nextId) := by
          unfold sendMessageRoute
          rw [hfind]
          simp [hm]
        rw [hroute]
        have hframe := unreadLoop_frame uid
          ({ conv with lastMessage := some st.nextId, lastMessageAt := now } :
            Conversation).participants
          { conv with lastMessage := some st.nextId, lastMessageAt := now }
        have hlm : (sendUnreadUpdate uid
            { conv with lastMessage := some st.nextId, lastMessageAt := now }).lastMessage
            = some st.nextId := hframe.2.2.1
        have hid : (sendUnreadUpdate uid
            { conv with lastMessage := some st.nextId, lastMessageAt := now }).id
            = conv.id := hframe.1
        constructor
        · intro c hc mid hmid
          obtain ⟨x, hx, hxc⟩ := List.mem_map.mp hc
          by_cases hxid : x.id = (sendUnreadUpdate uid
              { conv with lastMessage := some st.nextId, lastMessageAt := now }).id
          · rw [if_pos hxid] at hxc
            subst hxc
            rw [hlm] at hmid
            injection hmid with hmid
            subst hmid
            exact ⟨_, List.mem_append_right _ (List.mem_singleton.mpr rfl), rfl⟩
          · rw [if_neg hxid] at hxc
            subst hxc
            obtain ⟨m, hmmem, hmid'⟩ := hok x hx mid hmid
            exact ⟨m, List.mem_append_left _ hmmem, hmid'⟩
        · intro mid hmid
          injection hmid with hmid
          subst hmid
          refine ⟨sendUnreadUpdate uid
            { conv with lastMessage := some st.nextId, lastMessageAt := now },
            findConversation_save _ cid conv _ hfind hid, hlm,
            _, List.mem_append_right _ (List.mem_singleton.mpr rfl), rfl⟩
    · have hroute : sendMessageRoute uid cid mtype content rt now persistOk st
          = (st, .error .forbidden) := by
        unfold sendMessageRoute
        rw [hfind]
        simp [hm]
      rw [hroute]
      exact ⟨hok, fun mid hmid => by cases hmid⟩

/-- Witness for C6 at a concrete store. -/
theorem send_atomicity_witness :
    (sendMessageRoute 4 1 .text { text := some "hi" } none 9 false storeBoth).1
      = storeBoth ∧
    lastMessageOk (sendMessageRoute 4 1 .text { text := some "hi" } none 9 true storeBoth).1 ∧
    (∀ mid, (sendMessageRoute 4 1 .text { text := some "hi" } none 9 true storeBoth).2
        = .ok mid →
      ∃ conv', findConversation
          (sendMessageRoute 4 1 .text { text := some "hi" } none 9 true storeBoth).1 1
          = some conv' ∧ conv'.lastMessage = some mid ∧
        ∃ m ∈ (sendMessageRoute 4 1 .text { text := some "hi" } none 9 true storeBoth).1.messages,
          m.id = mid) :=
  send_atomicity 4 1 .text { text := some "hi" } none 9 true storeBoth
    (by
      intro c hc mid hmid
      simp only [storeBoth, List.mem_singleton] at hc
      subst hc
      cases hmid)

/-! ## Claim C2 -/

/-- Each forward-loop iteration adds exactly one message and one id. -/
theorem forwardStep_fold_lengths (uid : UserId) (orig : Message) (now : Time)
    (cs : List Conversation) (s : Store) (acc : List MsgId) :
    (cs.foldl (forwardStep uid orig now) (s, acc)).1.messages.length
        = s.messages.length + cs.length ∧
    (cs.foldl (forwardStep uid orig now) (s, acc)).2.length = acc.length + cs.length := by
  induction cs generalizing s acc with
  | nil => simp
  | cons c rest ih =>
    rw [List.foldl_cons]
    have hstep : forwardStep uid orig now (s, acc) c
        = (saveConversation
            { s with
                messages := s.messages ++ [orig.forwardMessage c.id uid s.nextId now],
                nextId := s.nextId + 1 }
            { c with lastMessage := some (orig.forwardMessage c.id uid s.nextId now).id,
                     lastMessageAt := now },
           acc ++ [(orig.forwardMessage c.id uid s.nextId now).id]) := rfl
    rw [hstep]
    rcases ih (saveConversation
        { s with
            messages := s.messages ++ [orig.forwardMessage c.id uid s.nextId now],
            nextId := s.nextId + 1 }
        { c with lastMessage := some (orig.forwardMessage c.id uid s.nextId now).id,
                 lastMessageAt := now })
      (acc ++ [(orig.forwardMessage c.id uid s.nextId now).id]) with ⟨h1, h2⟩
    constructor
    · rw [h1]
      simp [saveConversation]
      omega
    · rw [h2]
      simp
      omega

/-- C2 (amended): forward is all-or-nothing with respect to the route's
own membership query — which passes a target conversation when some
participant entry carries the forwarding user and some (possibly
different) entry is active.  If the query result does not cover every
requested target id, the route rejects and creates zero messages in
every target; otherwise it creates exactly one forwarded copy per
requested target. -/
theorem forward_all_or_nothing (uid : UserId) (orig : Message) (ids : List ConvId)
    (now : Time) (st : Store) :
    (∀ e, (forwardRoute uid orig ids now st).2 = .error e →
      (forwardRoute uid orig ids now st).1 = st) ∧
    (∀ out, (forwardRoute uid orig ids now st).2 = .ok out →
      (forwardRoute uid orig ids now st).1.messages.length
          = st.messages.length + ids.length ∧
      out.length = ids.length) := by
  by_cases h0 : ids.length = 0
  · have hroute : forwardRoute uid orig ids now st = (st, .error .validationFailed) := by
      unfold forwardRoute
      rw [if_pos h0]
    rw [hroute]
    exact ⟨fun e _ => rfl, fun out hout => by cases hout⟩
  · by_cases h1 : (st.conversations.filter (mongoForwardMatch uid ids)).length ≠ ids.length
    · have hroute : forwardRoute uid orig ids now st = (st, .error .forbidden) := by
        unfold forwardRoute
        rw [if_neg h0]
        dsimp only
        rw [if_pos h1]
      rw [hroute]
      exact ⟨fun e _ => rfl, fun out hout => by cases hout⟩
    · push_neg at h1
      have hroute : forwardRoute uid orig ids now st
          = (((st.conversations.filter (mongoForwardMatch uid ids)).foldl
                (forwardStep uid orig now) (st, [])).1,
             .ok ((st.conversations.filter (mongoForwardMatch uid ids)).foldl
                (forwardStep uid orig now) (st, [])).2) := by
        unfold forwardRoute
        rw [if_neg h0]
        dsimp only
        rw [if_neg (not_not_intro h1)]
      rw [hroute]
      refine ⟨?_, ?_⟩
      · intro e he
        cases he
      intro out hout
      injection hout with hout
      subst hout
      rcases forwardStep_fold_lengths uid orig now
        (st.conversations.filter (mongoForwardMatch uid ids)) st [] with ⟨hl, hr⟩
      rw [hl, hr, h1]
      exact ⟨rfl, by simp⟩

/-- Counterexample to C2 as stated: user 4 has left conversation 1
(fails the active-participant check) but the route's query still
matches it because another participant is active, so a forwarded
message is created rather than zero. -/
theorem forward_membership_counterexample :
    convLeft.isActiveParticipant 4 = false ∧
    (forwardRoute 4 mLive [1] 9 storeLeft).2 = .ok [100] ∧
    (forwardRoute 4 mLive [1] 9 storeLeft).1.messages.length = 1 := by
  exact ⟨rfl, rfl, rfl⟩

/-- Witness for the amended C2: a rejected request creates nothing, an
accepted one creates one copy per target. -/
theorem forward_all_or_nothing_witness :
    (forwardRoute 4 mLive [] 9 storeBoth).1 = storeBoth ∧
    ((forwardRoute 4 mLive [1] 9 storeBoth).1.messages.length
        = storeBoth.messages.length + 1 ∧
     ([100] : List MsgId).length = ([1] : List ConvId).length) :=
  ⟨(forward_all_or_nothing 4 mLive [] 9 storeBoth).1 .validationFailed rfl,
   (forward_all_or_nothing 4 mLive [1] 9 storeBoth).2 [100] rfl⟩

end Chat
